import Mathlib

/-!
Verification of the timeline-composition and rendering-pipeline core of a
desktop video editor (PyEditor).  The Python data model and the pure parts
of its operations are embedded shallowly: clips are records over `ℚ`,
stateful loops become structural recursions, subprocess invocations become
an oracle of exit-code/stderr results consumed in order.
-/

namespace PyEditor

/-- `models.MediaItem`: a source media file with probed metadata.
`mtype` is the string produced by `_detect_type`; `duration` is `none`
when probing failed or the media is an image/unknown. -/
structure MediaItem where
  path : String
  mtype : String
  duration : Option ℚ
deriving DecidableEq

/-- `models.TimelineClip`: one placed, edited instance of a `MediaItem`
on the timeline.  Field defaults mirror `TimelineClip.__init__`; the
Python attribute `end` is spelled `«end»` because `end` is a Lean keyword. -/
structure TimelineClip where
  media : MediaItem
  start : ℚ := 0
  «end» : Option ℚ := none
  title : String := ""
  title_size : ℤ := 36
  title_pos : String := "(w-text_w)/2"
  lut : String := "none"
  transition : String := "none"
  track : ℤ := 0
  speed : ℚ := 1
  preview_dir : Option String := none
  thumb_paths : List String := []
  waveform_path : Option String := none
  proxy_path : Option String := none
deriving DecidableEq

namespace TimelineClip

/-- `TimelineClip.duration_effective`: base duration from the trim window
(default 5.0 s when the media duration is unknown, floored at 0.2 s
otherwise), divided by the speed (any non-positive speed treated as 1.0),
floored again at 0.2 s. -/
def duration_effective (c : TimelineClip) : ℚ :=
  let base : ℚ :=
    match c.media.duration with
    | none => 5
    | some d => max 0.2 ((c.«end».getD d) - c.start)
  let spd : ℚ := if c.speed ≤ 0 then 1 else c.speed
  max 0.2 (base / spd)

end TimelineClip

/-- The base (speed-1) duration used by `duration_effective`. -/
def baseDuration (c : TimelineClip) : ℚ :=
  match c.media.duration with
  | none => 5
  | some d => max 0.2 ((c.«end».getD d) - c.start)

/-- The first `while` loop of `atempo_chain`: while the remaining ratio
exceeds 2.0, emit a 2.0 stage and halve the remaining ratio.  Returns the
emitted stages and the final remaining ratio. -/
def atempoDown (v : ℚ) : List ℚ × ℚ :=
  if h : 2 < v then
    let r := atempoDown (v / 2)
    (2 :: r.1, r.2)
  else ([], v)
termination_by (Int.ceil v).toNat
decreasing_by
  have h2 : v / 2 ≤ v - 1 := by linarith
  have h3 : Int.ceil (v / 2) ≤ Int.ceil (v - 1) := Int.ceil_le_ceil h2
  have h4 : Int.ceil (v - (1 : ℚ)) = Int.ceil v - 1 := by
    exact_mod_cast Int.ceil_sub_int v (1 : ℤ)
  have h5 : 0 < Int.ceil v := Int.ceil_pos.mpr (by linarith)
  omega

/-- The second `while` loop of `atempo_chain`: while the remaining ratio is
below 0.5, emit a 0.5 stage and double the remaining ratio.  (The loop is
only ever entered with a positive ratio; the positivity guard makes the
Lean recursion total.) -/
def atempoUp (v : ℚ) : List ℚ × ℚ :=
  if h : 0 < v ∧ v < 1/2 then
    let r := atempoUp (v * 2)
    ((1/2 : ℚ) :: r.1, r.2)
  else ([], v)
termination_by (Int.ceil (2 / v)).toNat
decreasing_by
  have hv : 0 < v := h.1
  have hgt : 2 < 2 / v := by
    rw [lt_div_iff hv]; linarith [h.2]
  have heq : 2 / (v * 2) = (2 / v) / 2 := by
    field_simp
  rw [heq]
  have h2 : (2 / v) / 2 ≤ (2 / v) - 1 := by linarith
  have h3 : Int.ceil ((2 / v) / 2) ≤ Int.ceil ((2 / v) - 1) := Int.ceil_le_ceil h2
  have h4 : Int.ceil ((2 / v) - (1 : ℚ)) = Int.ceil (2 / v) - 1 := by
    exact_mod_cast Int.ceil_sub_int (2 / v) (1 : ℤ)
  have h5 : 0 < Int.ceil (2 / v) := Int.ceil_pos.mpr (by linarith)
  omega

/-- `atempo_chain`: a non-positive input is treated as 1.0, then the ratio
is decomposed into 2.0 stages, 0.5 stages, and one final leftover stage. -/
def atempo_chain (v : ℚ) : List ℚ :=
  let v1 := if v ≤ 0 then 1 else v
  let d := atempoDown v1
  let u := atempoUp d.2
  d.1 ++ u.1 ++ [u.2]

/-! ### Sequencer (`main_window.py`: `_clip_at_global_time`,
`_cumulative_start_of`).  The loop accumulator `t` becomes an explicit
argument of a structural recursion over the ordered clip list. -/

/-- Loop body of `_clip_at_global_time`: walk the clips accumulating
effective durations in `t`; return the first clip whose span contains
`sec` together with the local offset `sec - t`. -/
def clipAtFrom (sec : ℚ) : ℚ → List TimelineClip → Option (TimelineClip × ℚ)
  | _, [] => none
  | t, c :: rest =>
    if sec < t + c.duration_effective then some (c, sec - t)
    else clipAtFrom sec (t + c.duration_effective) rest

/-- `MainWindow._clip_at_global_time` on the ordered timeline list. -/
def clip_at_global_time (clips : List TimelineClip) (sec : ℚ) :
    Option (TimelineClip × ℚ) :=
  clipAtFrom sec 0 clips

/-- Loop body of `_cumulative_start_of`: return the accumulated `t` at the
first occurrence of the target clip, and 0.0 when it is not found. -/
def cumulativeStartFrom (target : TimelineClip) : ℚ → List TimelineClip → ℚ
  | _, [] => 0
  | t, c :: rest =>
    if c = target then t
    else cumulativeStartFrom target (t + c.duration_effective) rest

/-- `MainWindow._cumulative_start_of` on the ordered timeline list. -/
def cumulative_start_of (clips : List TimelineClip) (target : TimelineClip) : ℚ :=
  cumulativeStartFrom target 0 clips

/-- Total effective duration of a clip list. -/
def effSum (clips : List TimelineClip) : ℚ :=
  (clips.map TimelineClip.duration_effective).sum

/-- A concrete media asset used by the witnesses. -/
def wMedia : MediaItem :=
  { path := "w.mp4", mtype := "video", duration := some 10 }

/-- Witness clip of effective duration 2 (trim 0..2, speed 1). -/
def wClipA : TimelineClip := { media := wMedia, «end» := some 2 }

/-- Witness clip of effective duration 3 (trim 0..3, speed 1). -/
def wClipB : TimelineClip := { media := wMedia, «end» := some 3 }

/-! ### Split at playhead (`main_window.py`: `split_at_playhead`).
The timeline-list part of the operation: locate the owning clip, reject
near-edge splits, and replace the clip by a left/right pair.  The left and
right clips are built exactly as in the source: a fresh `TimelineClip`
(so `track`, `speed` and the derived-artifact fields keep their
`__init__` defaults) with `title`, `title_size` and `lut` copied, the left
transition forced to `"none"`, and the split point
`split_abs = clip.start + local_sec` (the local offset is NOT converted
back to raw media time). -/

/-- The left clip created by `split_at_playhead`. -/
def split_left (clip : TimelineClip) (split_abs : ℚ) : TimelineClip :=
  { media := clip.media, start := clip.start, «end» := some split_abs,
    title := clip.title, title_size := clip.title_size,
    lut := clip.lut, transition := "none" }

/-- The right clip created by `split_at_playhead`. -/
def split_right (clip : TimelineClip) (split_abs : ℚ) : TimelineClip :=
  { media := clip.media, start := split_abs, «end» := clip.«end»,
    title := clip.title, title_size := clip.title_size,
    lut := clip.lut, transition := clip.transition }

/-- `timeline.pop(idx); timeline[idx:idx] = repl` at the first occurrence
of `target` (Python `list.index` finds the first match). -/
def replaceFirst (clips : List TimelineClip) (target : TimelineClip)
    (repl : List TimelineClip) : List TimelineClip :=
  match clips with
  | [] => []
  | c :: rest =>
    if c = target then repl ++ rest else c :: replaceFirst rest target repl

/-- `MainWindow.split_at_playhead` on the timeline list. -/
def split_at_playhead (clips : List TimelineClip) (gsec : ℚ) :
    List TimelineClip :=
  match clip_at_global_time clips gsec with
  | none => clips
  | some (clip, local_sec) =>
    if local_sec ≤ 0.05 ∨ clip.duration_effective - 0.05 ≤ local_sec then clips
    else
      let split_abs := clip.start + local_sec
      replaceFirst clips clip
        [split_left clip split_abs, split_right clip split_abs]

/-- A clip with raw trim window [0, 10) played at speed 2.0
(effective duration 5 s). -/
def cSpeed2 : TimelineClip :=
  { media := wMedia, start := 0, «end» := some 10, speed := 2 }

/-- A clip on track 1 with raw window [0, 10) at speed 1.0. -/
def cTrack1 : TimelineClip :=
  { media := wMedia, start := 0, «end» := some 10, track := 1 }

/-! ### Per-clip render command (`export.py`: `_render_single_clip`).
The ffmpeg argument list is modelled structurally: the `-ss`/`-t` trim
arguments as optional rationals, the `-vf` stages as an inductive filter
type, and the `-af` entry as the list of atempo stage ratios. -/

/-- A `-vf` filter stage emitted by `_render_single_clip`. -/
inductive VFilter
  | lut3d (path : String)
  | drawtext (text : String) (size : ℤ) (pos : String)
  | setpts (speed : ℚ)
deriving DecidableEq

/-- The single-quote escaping applied to title text. -/
def escape_single_quotes (s : String) : String :=
  s.replace "'" "\\'"

/-- The parts of the ffmpeg command built by `_render_single_clip`. -/
structure RenderCmd where
  ssArg : Option ℚ
  tArg : Option ℚ
  vf : List VFilter
  af : List (List ℚ)
deriving DecidableEq

/-- `ProjectExporter._render_single_clip` (argument construction only;
`lutFileExists` stands for `os.path.exists` on the LUT path).  Python
truthiness is made explicit: `clip.start and clip.start > 0`,
`clip.end and clip.end > clip.start`, `clip.lut`, `clip.title`, and
`clip.speed or 1.0` (a stored speed of exactly 0 falls back to 1.0). -/
def render_single_clip (clip : TimelineClip) (lutDir : String)
    (lutFileExists : String → Bool) : RenderCmd :=
  let ssArg : Option ℚ :=
    if clip.start ≠ 0 ∧ 0 < clip.start then some clip.start else none
  let tArg : Option ℚ :=
    match clip.«end» with
    | some e => if e ≠ 0 ∧ clip.start < e then some (e - clip.start) else none
    | none => none
  let lutPath := lutDir ++ "/" ++ clip.lut
  let vfLut : List VFilter :=
    if clip.lut ≠ "" ∧ clip.lut ≠ "none" ∧ lutFileExists lutPath then
      [.lut3d lutPath]
    else []
  let vfTitle : List VFilter :=
    if clip.title ≠ "" then
      [.drawtext (escape_single_quotes clip.title) clip.title_size clip.title_pos]
    else []
  let spd : ℚ := if clip.speed = 0 then 1 else clip.speed
  let vfSpeed : List VFilter := if spd ≠ 1 then [.setpts spd] else []
  let af : List (List ℚ) := if spd ≠ 1 then [atempo_chain spd] else []
  { ssArg := ssArg, tArg := tArg, vf := vfLut ++ vfTitle ++ vfSpeed, af := af }

/-- Concrete clip for the C5 witness: trim 1..9 on the 10 s asset. -/
def cRender : TimelineClip := { media := wMedia, start := 1, «end» := some 9 }

/-! ### Sequence assembly (`export.py`: `ProjectExporter.export`,
`_concatenate_simple`, `_concatenate_with_transitions`).  The choice of
assembly mode and the per-pair fold steps are modelled as data. -/

/-- `utils.safe_path_for_concat`: backslashes to forward slashes, then the
concat-manifest single-quote escaping. -/
def safe_path_for_concat (path : String) : String :=
  (path.replace "\\" "/").replace "'" ("'" ++ "\\" ++ "''")

/-- `FFmpegConfig.CROSSFADE_DURATION` from `config.py`. -/
def CROSSFADE_DURATION : ℚ := 1

/-- One fold step of `_concatenate_with_transitions`: an audio+video
filter-graph concat, or a video-only xfade with the named transition. -/
inductive TStep
  | concatAV
  | xfadeVideoOnly (transition : String) (duration : ℚ) (offset : ℚ)
deriving DecidableEq

/-- The transition name used at a fold step: a falsy (empty) transition
becomes `"none"`, and the friendly name `"crossfade"` maps to `"fade"`. -/
def mappedTransition (c : TimelineClip) : String :=
  let tr0 := if c.transition = "" then "none" else c.transition
  if tr0 = "crossfade" then "fade" else tr0

/-- The fold step generated for the pair whose left clip is `c`. -/
def transitionStep (c : TimelineClip) : TStep :=
  if mappedTransition c = "none" then .concatAV
  else .xfadeVideoOnly (mappedTransition c) CROSSFADE_DURATION 1

/-- The sequence-assembly plan chosen by `ProjectExporter.export`. -/
inductive SeqAssembly
  | simpleConcat (manifestPaths : List String)
  | transitions (steps : List TStep)
deriving DecidableEq

/-- `ProjectExporter.export`, assembly part: stream-copy concat over the
escaped manifest paths unless some clip's transition is exactly
`"crossfade"`; otherwise the left-to-right fold whose step `i` is driven
by `timeline[i-1]` (all clips but the last). -/
def assemblyPlan (tl : List TimelineClip) (rendered : List String) :
    SeqAssembly :=
  if tl.any (fun c => c.transition = "crossfade") then
    .transitions (tl.dropLast.map transitionStep)
  else
    .simpleConcat (rendered.map safe_path_for_concat)

/-- A clip using a named wipe transition (not crossfade). -/
def cWipe : TimelineClip := { media := wMedia, «end» := some 2, transition := "wipeleft" }

/-- A clip using the crossfade transition. -/
def cCross : TimelineClip := { media := wMedia, «end» := some 2, transition := "crossfade" }

/-! ### Speed coercion (`models.TimelineClip.from_dict`,
`main_window.apply_speed_to_clip`).  A stored speed field is either a
numeric value (anything `float()` accepts) or a non-convertible value. -/

/-- The stored `"speed"` field of a clip record as seen by `float(...)`. -/
inductive JsonVal
  | num (q : ℚ)
  | nonNumeric
deriving DecidableEq

/-- `from_dict`'s speed handling: `float(data.get("speed", 1.0))` with the
`except` clause mapping conversion failures to 1.0.  A numeric value is
stored as-is, including non-positive ones. -/
def from_dict_speed (v : Option JsonVal) : ℚ :=
  match v with
  | none => 1
  | some (.num q) => q
  | some .nonNumeric => 1

/-- `apply_speed_to_clip`'s coercion of the spin-box value: non-positive
input becomes 1.0. -/
def apply_speed (val : ℚ) : ℚ :=
  if val ≤ 0 then 1 else val

/-! ### Preview cache reuse (`preview_worker.py`: `PreviewWorker.run`).
The filesystem, the shared caches and the generation subprocesses are
oracles; Python truthiness of an optional path (`None` and `""` are falsy)
is explicit. -/

/-- Truthiness of an optional string in Python. -/
def optTruthy : Option String → Bool
  | some s => s ≠ ""
  | none => false

/-- The oracles consumed by one `PreviewWorker.run`: `os.path.exists`,
the shared caches keyed by the clip's asset path, the fresh uuid-named
clip directory, and the results of the generation subprocesses. -/
structure PreviewEnv where
  existsFs : String → Bool
  waveCache : Option String
  thumbsCache : Option (List String)
  freshDir : String
  genThumbs : List String
  genWave : Option String

/-- The observable outcome of one `PreviewWorker.run`. -/
structure RunOutcome where
  clip : TimelineClip
  madeDir : Bool
  regenedThumbs : Bool
  regenedWave : Bool
  waveCacheOut : Option String
  thumbsCacheOut : Option (List String)

/-!  `PreviewWorker.run` is decomposed into the two cache checks and the
regeneration part (`regenPart`); the optional proxy transcode only changes
the source passed to the generators, which the generation oracles absorb. -/

def cacheWaveClip (clip0 : TimelineClip) (env : PreviewEnv) : TimelineClip :=
  match env.waveCache with
  | some w => if env.existsFs w then { clip0 with waveform_path := some w } else clip0
  | none => clip0

def cacheThumbClip (c1 : TimelineClip) (env : PreviewEnv) : TimelineClip :=
  match env.thumbsCache with
  | some ts => if ts.all env.existsFs then { c1 with thumb_paths := ts } else c1
  | none => c1

def regenPart (clip0 : TimelineClip) (env : PreviewEnv) (c2 : TimelineClip) : RunOutcome :=
  let c3 : TimelineClip := { c2 with preview_dir := some env.freshDir }
  let doThumbs := c3.thumb_paths = []
  let c4 : TimelineClip :=
    if doThumbs then { c3 with thumb_paths := env.genThumbs } else c3
  let thumbsCacheOut :=
    if doThumbs ∧ env.genThumbs ≠ [] then some env.genThumbs else env.thumbsCache
  let doWave := ¬ optTruthy c4.waveform_path ∧
    (clip0.media.mtype = "video" ∨ clip0.media.mtype = "audio")
  let c5 : TimelineClip :=
    if doWave then
      match env.genWave with
      | some w => { c4 with waveform_path := some w }
      | none => c4
    else c4
  let waveCacheOut :=
    if doWave then
      match env.genWave with
      | some w => some w
      | none => env.waveCache
    else env.waveCache
  { clip := c5, madeDir := true, regenedThumbs := doThumbs,
    regenedWave := doWave, waveCacheOut := waveCacheOut,
    thumbsCacheOut := thumbsCacheOut }

def preview_run (clip0 : TimelineClip) (env : PreviewEnv) : RunOutcome :=
  let c2 := cacheThumbClip (cacheWaveClip clip0 env) env
  if optTruthy c2.waveform_path ∧ c2.thumb_paths ≠ [] then
    { clip := c2, madeDir := false, regenedThumbs := false, regenedWave := false,
      waveCacheOut := env.waveCache, thumbsCacheOut := env.thumbsCache }
  else regenPart clip0 env c2

/-- Concrete environment for the C9 witness: the cache lists files
"t1" (still present) and "t2" (deleted), and a cached waveform "w1"
(deleted). -/
def wEnv : PreviewEnv :=
  { existsFs := fun s => s = "t1"
    waveCache := some "w1"
    thumbsCache := some ["t1", "t2"]
    freshDir := "/tmp/clip_fresh"
    genThumbs := ["n1", "n2"]
    genWave := some "nw" }

/-! ### Export failure propagation (`export.py`: `ProjectExporter.export`
and its stages; `utils.run_cmd`).  Subprocess results are an oracle
`ℕ → CmdResult` consumed in invocation order; each planned invocation
carries its output destination, the stage's failure-message prefix, and
whether it writes the requested output path (only the final mix or the
finalization copy do).  `runSeq` aborts at the first non-zero exit code
with the stage message wrapped around the captured stderr, exactly as the
chain of `RuntimeError(f"... {err}")` re-raised as
`RuntimeError(f"Export failed: {e}")` does; the trace records the
destinations of the invocations that succeeded. -/

/-- `utils.run_cmd`'s result: exit code, captured stdout and stderr. -/
structure CmdResult where
  exitCode : ℤ
  stdout : String
  stderr : String

/-- A completed external invocation (or rename), by destination. -/
structure ExportAction where
  dest : String
  writesOutput : Bool
deriving DecidableEq

/-- One planned external invocation of the export pipeline. -/
structure PlannedCmd where
  dest : String
  failMsg : String
  writesOutput : Bool
deriving DecidableEq

/-- The oracle cursor and the successful-invocation trace. -/
structure ExpState where
  k : ℕ
  trace : List ExportAction
deriving DecidableEq

/-- Run the planned invocations in order, stopping at the first non-zero
exit code with the stage message prefixed to the stderr text. -/
def runSeq (oracle : ℕ → CmdResult) :
    ExpState → List PlannedCmd → Except (String × ExpState) ExpState
  | st, [] => .ok st
  | st, c :: rest =>
    let r := oracle st.k
    if r.exitCode = 0 then
      runSeq oracle
        { k := st.k + 1, trace := st.trace ++ [⟨c.dest, c.writesOutput⟩] } rest
    else
      .error (c.failMsg ++ r.stderr, { k := st.k + 1, trace := st.trace })

/-- The invocations issued by `ProjectExporter.export`: one render per
clip, then either the stream-copy concat or the pairwise transition
steps, then the optional music processing and mix (the mix writes the
requested output path), or else the finalization (a plain rename when
`os.replace` succeeds, otherwise a stream-copy re-encode to the output
path). -/
def exportPlan (tl : List TimelineClip) (bgMusic : Option String)
    (outputPath tempDir : String) (replaceOk : Bool) : List PlannedCmd :=
  let n := tl.length
  let renderSeq : List PlannedCmd := (List.range n).map fun i =>
    ⟨tempDir ++ "/clip_" ++ toString i ++ ".mp4", "Failed to render clip: ", false⟩
  let assemblySeq : List PlannedCmd :=
    if tl.any (fun c => c.transition = "crossfade") then
      (List.range (n - 1)).map fun i =>
        ⟨tempDir ++ "/xfade_" ++ toString i ++ ".mp4", "Failed transition step: ", false⟩
    else
      [⟨tempDir ++ "/concatenated.mp4", "Failed to concatenate clips: ", false⟩]
  let finalSeq : List PlannedCmd :=
    match bgMusic with
    | some _ =>
      [⟨tempDir ++ "/bg.aac", "Failed to process music: ", false⟩,
       ⟨outputPath, "Failed to mix background music: ", true⟩]
    | none =>
      if replaceOk then []
      else [⟨outputPath, "Failed to produce final output: ", true⟩]
  renderSeq ++ (assemblySeq ++ finalSeq)

/-- The tail of `ProjectExporter.export`: on success the `os.replace`
promotion is recorded when it applies; on failure the stage error is
wrapped in the `Export failed: ` report, keeping the trace of completed
invocations. -/
def finishExport (bgMusic : Option String) (outputPath : String)
    (replaceOk : Bool) :
    Except (String × ExpState) ExpState →
      Except (String × List ExportAction) (List ExportAction)
  | .ok st =>
    if bgMusic = none ∧ replaceOk then .ok (st.trace ++ [⟨outputPath, true⟩])
    else .ok st.trace
  | .error (msg, st) => .error ("Export failed: " ++ msg, st.trace)

/-- `ProjectExporter.export` over the oracle. -/
def export_run (tl : List TimelineClip) (bgMusic : Option String)
    (outputPath tempDir : String) (replaceOk : Bool) (oracle : ℕ → CmdResult) :
    Except (String × List ExportAction) (List ExportAction) :=
  finishExport bgMusic outputPath replaceOk
    (runSeq oracle ⟨0, []⟩ (exportPlan tl bgMusic outputPath tempDir replaceOk))

/-- An oracle on which every invocation fails with stderr "boom". -/
def failOracle : ℕ → CmdResult := fun _ => ⟨1, "", "boom"⟩

/-! ### Theorems -/

theorem duration_effective_def (c : TimelineClip) :
    c.duration_effective =
      max 0.2 (baseDuration c / (if c.speed ≤ 0 then 1 else c.speed)) := by
  rfl

theorem baseDuration_ge (c : TimelineClip) : (0.2 : ℚ) ≤ baseDuration c := by
  unfold baseDuration
  cases c.media.duration with
  | none => norm_num
  | some d => exact le_max_left _ _

theorem duration_effective_speed_one (c : TimelineClip) :
    TimelineClip.duration_effective { c with speed := 1 } = baseDuration c := by
  rw [duration_effective_def]
  have h1 : ¬ ((1 : ℚ) ≤ 0) := by norm_num
  simp only [h1, if_false, div_one]
  exact max_eq_right (baseDuration_ge c)

/-- C1: a clip's effective duration is `max(0.2, base / speed)` where the
base is 5.0 for unknown media duration and otherwise the floored trim
window; equivalently, for positive speed it is the speed-1 effective
duration divided by the speed, floored at the minimum clip duration 0.2. -/
theorem duration_effective_spec (c : TimelineClip) (h : 0 < c.speed) :
    c.duration_effective =
      max 0.2 ((match c.media.duration with
        | none => (5 : ℚ)
        | some d => max 0.2 ((c.«end».getD d) - c.start)) / c.speed)
    ∧ c.duration_effective =
      max 0.2 (TimelineClip.duration_effective { c with speed := 1 } / c.speed) := by
  have hs : ¬ (c.speed ≤ 0) := not_le.mpr h
  constructor
  · rw [duration_effective_def]
    simp only [hs, if_false]
    rfl
  · rw [duration_effective_def, duration_effective_speed_one]
    simp only [hs, if_false]

/-- Witness for C1 at a concrete clip: media of duration 10, trim 1..9,
speed 2.0 gives effective duration 4.0. -/
theorem duration_effective_spec_witness :
    (0 : ℚ) < (2 : ℚ) ∧
      ({ media := { path := "a.mp4", mtype := "video", duration := some 10 },
         start := 1, «end» := some 9, speed := 2 } : TimelineClip).duration_effective =
        max 0.2 ((max 0.2 ((9 : ℚ) - 1)) / 2) := by
  refine ⟨by norm_num, ?_⟩
  have h := duration_effective_spec
    { media := { path := "a.mp4", mtype := "video", duration := some 10 },
      start := 1, «end» := some 9, speed := 2 } (by norm_num)
  exact h.1

/-! ### Tempo-chain decomposition (`export.py` / `effect_preview_worker.py`,
local function `atempo_chain`).  The two `while` loops become well-founded
recursions; stages are kept as exact rationals (the Python code formats the
final stage with 6 decimals, which is exact for the values proved here). -/

theorem ceil_half_toNat_lt (v : ℚ) (h : 2 < v) :
    (Int.ceil (v / 2)).toNat < (Int.ceil v).toNat := by
  have h2 : v / 2 ≤ v - 1 := by linarith
  have h3 : Int.ceil (v / 2) ≤ Int.ceil (v - 1) := Int.ceil_le_ceil h2
  have h4 : Int.ceil (v - (1 : ℚ)) = Int.ceil v - 1 := by
    exact_mod_cast Int.ceil_sub_int v (1 : ℤ)
  have h5 : 0 < Int.ceil v := Int.ceil_pos.mpr (by linarith)
  omega

theorem atempoDown_prod (v : ℚ) :
    (atempoDown v).1.prod * (atempoDown v).2 = v := by
  rw [atempoDown]
  split
  · rename_i h
    have ih := atempoDown_prod (v / 2)
    simp only [List.prod_cons]
    rw [mul_assoc, ih]
    ring
  · simp
termination_by (Int.ceil v).toNat
decreasing_by exact ceil_half_toNat_lt v (by assumption)

theorem atempoDown_mem (v : ℚ) :
    ∀ s ∈ (atempoDown v).1, s = 2 := by
  rw [atempoDown]
  split
  · rename_i h
    have ih := atempoDown_mem (v / 2)
    intro s hs
    rcases List.mem_cons.mp hs with h1 | h2
    · exact h1
    · exact ih s h2
  · simp
termination_by (Int.ceil v).toNat
decreasing_by exact ceil_half_toNat_lt v (by assumption)

theorem atempoDown_le (v : ℚ) : (atempoDown v).2 ≤ 2 := by
  rw [atempoDown]
  split
  · exact atempoDown_le (v / 2)
  · rename_i h
    linarith [not_lt.mp h]
termination_by (Int.ceil v).toNat
decreasing_by exact ceil_half_toNat_lt v (by assumption)

theorem atempoDown_pos (v : ℚ) (hv : 0 < v) : 0 < (atempoDown v).2 := by
  rw [atempoDown]
  split
  · exact atempoDown_pos (v / 2) (by positivity)
  · exact hv
termination_by (Int.ceil v).toNat
decreasing_by exact ceil_half_toNat_lt v (by assumption)

theorem atempoUp_prod (v : ℚ) :
    (atempoUp v).1.prod * (atempoUp v).2 = v := by
  rw [atempoUp]
  split
  · rename_i h
    have ih := atempoUp_prod (v * 2)
    simp only [List.prod_cons]
    rw [mul_assoc, ih]
    ring
  · simp
termination_by (Int.ceil (2 / v)).toNat
decreasing_by
  rename_i h
  have hv : 0 < v := h.1
  have hgt : 2 < 2 / v := by
    rw [lt_div_iff hv]; linarith [h.2]
  have heq : 2 / (v * 2) = (2 / v) / 2 := by
    field_simp
  rw [heq]
  exact ceil_half_toNat_lt (2 / v) hgt

theorem atempoUp_mem (v : ℚ) :
    ∀ s ∈ (atempoUp v).1, s = 1/2 := by
  rw [atempoUp]
  split
  · rename_i h
    have ih := atempoUp_mem (v * 2)
    intro s hs
    rcases List.mem_cons.mp hs with h1 | h2
    · exact h1
    · exact ih s h2
  · simp
termination_by (Int.ceil (2 / v)).toNat
decreasing_by
  rename_i h
  have hv : 0 < v := h.1
  have hgt : 2 < 2 / v := by
    rw [lt_div_iff hv]; linarith [h.2]
  have heq : 2 / (v * 2) = (2 / v) / 2 := by
    field_simp
  rw [heq]
  exact ceil_half_toNat_lt (2 / v) hgt

theorem atempoUp_ge (v : ℚ) (hv : 0 < v) : 1/2 ≤ (atempoUp v).2 := by
  rw [atempoUp]
  split
  · rename_i h
    exact atempoUp_ge (v * 2) (by positivity)
  · rename_i h
    rcases not_and_or.mp h with h1 | h2
    · exact absurd hv h1
    · linarith [not_lt.mp h2]
termination_by (Int.ceil (2 / v)).toNat
decreasing_by
  rename_i h
  have hv : 0 < v := h.1
  have hgt : 2 < 2 / v := by
    rw [lt_div_iff hv]; linarith [h.2]
  have heq : 2 / (v * 2) = (2 / v) / 2 := by
    field_simp
  rw [heq]
  exact ceil_half_toNat_lt (2 / v) hgt

theorem atempoUp_le (v : ℚ) (hv : v ≤ 2) : (atempoUp v).2 ≤ 2 := by
  rw [atempoUp]
  split
  · rename_i h
    exact atempoUp_le (v * 2) (by linarith [h.2])
  · exact hv
termination_by (Int.ceil (2 / v)).toNat
decreasing_by
  rename_i h
  have hv2 : 0 < v := h.1
  have hgt : 2 < 2 / v := by
    rw [lt_div_iff hv2]; linarith [h.2]
  have heq : 2 / (v * 2) = (2 / v) / 2 := by
    field_simp
  rw [heq]
  exact ceil_half_toNat_lt (2 / v) hgt

/-- C2: every stage emitted by `atempo_chain` lies in [0.5, 2.0], the
product of the stages equals the input ratio (with non-positive inputs
treated as 1.0), and the concrete examples 5.0 → [2.0, 2.0, 1.25],
0.2 → [0.5, 0.5, 0.8], 1.0 → [1.0] hold. -/
theorem atempo_chain_correct :
    (∀ v : ℚ, (atempo_chain v).prod = (if v ≤ 0 then 1 else v) ∧
      ∀ s ∈ atempo_chain v, (0.5 : ℚ) ≤ s ∧ s ≤ 2) ∧
    atempo_chain 5 = [2, 2, 1.25] ∧
    atempo_chain 0.2 = [0.5, 0.5, 0.8] ∧
    atempo_chain 1 = [1] ∧
    (∀ v : ℚ, v ≤ 0 → atempo_chain v = atempo_chain 1) := by
  have main : ∀ v : ℚ, (atempo_chain v).prod = (if v ≤ 0 then 1 else v) ∧
      ∀ s ∈ atempo_chain v, (0.5 : ℚ) ≤ s ∧ s ≤ 2 := by
    intro v
    set v1 : ℚ := if v ≤ 0 then 1 else v with hv1
    have hv1pos : 0 < v1 := by
      rw [hv1]; split
      · norm_num
      · rename_i h; exact lt_of_not_le h
    have hd := atempoDown_prod v1
    have hdmem := atempoDown_mem v1
    have hdle := atempoDown_le v1
    have hdpos := atempoDown_pos v1 hv1pos
    have hu := atempoUp_prod (atempoDown v1).2
    have humem := atempoUp_mem (atempoDown v1).2
    have huge := atempoUp_ge (atempoDown v1).2 hdpos
    have hule := atempoUp_le (atempoDown v1).2 hdle
    constructor
    · show (atempo_chain v).prod = v1
      unfold atempo_chain
      rw [← hv1]
      simp only [List.prod_append, List.prod_cons, List.prod_nil]
      have harr : (atempoDown v1).1.prod * (atempoUp (atempoDown v1).2).1.prod *
            ((atempoUp (atempoDown v1).2).2 * 1)
          = (atempoDown v1).1.prod *
            ((atempoUp (atempoDown v1).2).1.prod * (atempoUp (atempoDown v1).2).2) := by
        ring
      rw [harr, hu, hd]
    · intro s hs
      unfold atempo_chain at hs
      rw [← hv1] at hs
      simp only [List.mem_append, List.mem_singleton] at hs
      rcases hs with (h1 | h2) | h3
      · have := hdmem s h1
        constructor <;> rw [this] <;> norm_num
      · have := humem s h2
        constructor <;> rw [this] <;> norm_num
      · rw [h3]
        refine ⟨?_, hule⟩
        rw [show (0.5 : ℚ) = 1/2 by norm_num]
        exact huge
  have downStep : ∀ v : ℚ, 2 < v →
      atempoDown v = (2 :: (atempoDown (v / 2)).1, (atempoDown (v / 2)).2) := by
    intro v h
    rw [atempoDown, dif_pos h]
  have downStop : ∀ v : ℚ, ¬ 2 < v → atempoDown v = ([], v) := by
    intro v h
    rw [atempoDown, dif_neg h]
  have upStep : ∀ v : ℚ, 0 < v → v < 1/2 →
      atempoUp v = ((1/2 : ℚ) :: (atempoUp (v * 2)).1, (atempoUp (v * 2)).2) := by
    intro v h1 h2
    rw [atempoUp, dif_pos ⟨h1, h2⟩]
  have upStop : ∀ v : ℚ, ¬ (0 < v ∧ v < 1/2) → atempoUp v = ([], v) := by
    intro v h
    rw [atempoUp, dif_neg h]
  refine ⟨main, ?_, ?_, ?_, ?_⟩
  · show atempo_chain 5 = [2, 2, 1.25]
    have d1 : atempoDown (5 : ℚ) = ([2, 2], 5/4) := by
      rw [downStep 5 (by norm_num)]
      rw [downStep (5/2) (by norm_num)]
      rw [show (5 : ℚ)/2/2 = 5/4 by norm_num]
      rw [downStop (5/4) (by norm_num)]
    have u1 : atempoUp ((5 : ℚ)/4) = ([], 5/4) := upStop _ (by norm_num)
    unfold atempo_chain
    norm_num [d1, u1]
  · show atempo_chain 0.2 = [0.5, 0.5, 0.8]
    have hv : (0.2 : ℚ) = 1/5 := by norm_num
    have d1 : atempoDown ((1 : ℚ)/5) = ([], 1/5) := downStop _ (by norm_num)
    have u1 : atempoUp ((1 : ℚ)/5) = ([1/2, 1/2], 4/5) := by
      rw [upStep (1/5) (by norm_num) (by norm_num)]
      rw [show (1 : ℚ)/5*2 = 2/5 by norm_num]
      rw [upStep (2/5) (by norm_num) (by norm_num)]
      rw [show (2 : ℚ)/5*2 = 4/5 by norm_num]
      rw [upStop (4/5) (by norm_num)]
    unfold atempo_chain
    rw [hv]
    norm_num [d1, u1]
  · show atempo_chain 1 = [1]
    have d1 : atempoDown (1 : ℚ) = ([], 1) := downStop _ (by norm_num)
    have u1 : atempoUp (1 : ℚ) = ([], 1) := upStop _ (by norm_num)
    unfold atempo_chain
    norm_num [d1, u1]
  · intro v hv
    unfold atempo_chain
    simp only [hv, if_pos, if_true]
    norm_num

/-- Witness for C2: the non-positive input −3 is treated as 1.0. -/
theorem atempo_chain_correct_witness :
    (-3 : ℚ) ≤ 0 ∧ atempo_chain (-3) = atempo_chain 1 :=
  ⟨by norm_num, atempo_chain_correct.2.2.2.2 (-3) (by norm_num)⟩

theorem effSum_nil : effSum [] = 0 := rfl

theorem effSum_cons (c : TimelineClip) (rest : List TimelineClip) :
    effSum (c :: rest) = c.duration_effective + effSum rest := by
  simp [effSum]

theorem duration_effective_ge (c : TimelineClip) :
    (0.2 : ℚ) ≤ c.duration_effective :=
  le_max_left _ _

theorem effSum_nonneg (clips : List TimelineClip) : 0 ≤ effSum clips := by
  induction clips with
  | nil => simp [effSum_nil]
  | cons c rest ih =>
    rw [effSum_cons]
    have := duration_effective_ge c
    have h02 : (0 : ℚ) ≤ 0.2 := by norm_num
    linarith

theorem clipAtFrom_none (clips : List TimelineClip) :
    ∀ (sec t : ℚ), effSum clips ≤ sec - t → clipAtFrom sec t clips = none := by
  induction clips with
  | nil => intro sec t _; rfl
  | cons c rest ih =>
    intro sec t h
    rw [effSum_cons] at h
    have hrest : 0 ≤ effSum rest := effSum_nonneg rest
    have hnotlt : ¬ sec < t + c.duration_effective := by
      push_neg
      linarith
    rw [clipAtFrom, if_neg hnotlt]
    exact ih sec (t + c.duration_effective) (by linarith)

theorem clipAtFrom_found (clips : List TimelineClip) :
    ∀ (i : ℕ) (hi : i < clips.length) (sec t : ℚ),
      effSum (clips.take i) ≤ sec - t →
      sec - t < effSum (clips.take (i + 1)) →
      clipAtFrom sec t clips = some (clips.get ⟨i, hi⟩, sec - t - effSum (clips.take i)) := by
  induction clips with
  | nil => intro i hi; simp at hi
  | cons c rest ih =>
    intro i hi sec t hlow hhigh
    cases i with
    | zero =>
      simp only [List.take_zero, effSum_nil] at hlow
      simp only [List.take_succ_cons, List.take_zero, effSum_cons, effSum_nil,
        add_zero] at hhigh
      have hlt : sec < t + c.duration_effective := by linarith
      rw [clipAtFrom, if_pos hlt]
      simp [effSum_nil]
    | succ j =>
      simp only [List.take_succ_cons, effSum_cons] at hlow hhigh
      have hpre : 0 ≤ effSum (rest.take j) := effSum_nonneg _
      have hnotlt : ¬ sec < t + c.duration_effective := by
        push_neg
        linarith
      rw [clipAtFrom, if_neg hnotlt]
      have hj : j < rest.length := by
        simpa using Nat.lt_of_succ_lt_succ hi
      have := ih j hj sec (t + c.duration_effective) (by linarith) (by linarith)
      rw [this, show ((c :: rest).get ⟨j + 1, hi⟩) = rest.get ⟨j, hj⟩ from rfl,
        List.take_succ_cons, effSum_cons,
        show sec - (t + c.duration_effective) - effSum (rest.take j)
            = sec - t - (c.duration_effective + effSum (rest.take j)) by ring]

theorem cumulativeStartFrom_not_mem (target : TimelineClip)
    (clips : List TimelineClip) :
    ∀ t : ℚ, target ∉ clips → cumulativeStartFrom target t clips = 0 := by
  induction clips with
  | nil => intro t _; rfl
  | cons c rest ih =>
    intro t h
    have hne : c ≠ target := fun he => h (he ▸ List.mem_cons_self c rest)
    rw [cumulativeStartFrom, if_neg hne]
    exact ih _ (fun hm => h (List.mem_cons_of_mem c hm))

theorem cumulativeStartFrom_found (target : TimelineClip)
    (pre : List TimelineClip) :
    ∀ (post : List TimelineClip) (t : ℚ), target ∉ pre →
      cumulativeStartFrom target t (pre ++ target :: post) = t + effSum pre := by
  induction pre with
  | nil =>
    intro post t _
    rw [List.nil_append, cumulativeStartFrom, if_pos rfl, effSum_nil, add_zero]
  | cons c pre' ih =>
    intro post t h
    have hne : c ≠ target := fun he => h (he ▸ List.mem_cons_self c pre')
    rw [List.cons_append, cumulativeStartFrom, if_neg hne]
    rw [ih post _ (fun hm => h (List.mem_cons_of_mem c hm)), effSum_cons]
    ring

/-- C6: `_clip_at_global_time` returns the first clip whose accumulated
effective-duration span contains `sec`, with local offset `sec` minus the
effective durations of all preceding clips, and `none` at or past the total
effective duration; `_cumulative_start_of` returns the effective-duration
sum of the clips strictly before the (first occurrence of the) target, and
0.0 when the target is absent. -/
theorem sequencer_spec (clips : List TimelineClip) (sec : ℚ)
    (target : TimelineClip) :
    (effSum clips ≤ sec → clip_at_global_time clips sec = none) ∧
    (∀ (i : ℕ) (hi : i < clips.length),
      effSum (clips.take i) ≤ sec → sec < effSum (clips.take (i + 1)) →
      clip_at_global_time clips sec =
        some (clips.get ⟨i, hi⟩, sec - effSum (clips.take i))) ∧
    (target ∉ clips → cumulative_start_of clips target = 0) ∧
    (∀ pre post, clips = pre ++ target :: post → target ∉ pre →
      cumulative_start_of clips target = effSum pre) := by
  refine ⟨?_, ?_, ?_, ?_⟩
  · intro h
    exact clipAtFrom_none clips sec 0 (by linarith)
  · intro i hi hlow hhigh
    have := clipAtFrom_found clips i hi sec 0 (by linarith) (by linarith)
    rw [clip_at_global_time, this]
    congr 2
    ring
  · intro h
    exact cumulativeStartFrom_not_mem target clips 0 h
  · intro pre post hsplit hpre
    rw [cumulative_start_of, hsplit, cumulativeStartFrom_found target pre post 0 hpre]
    ring

/-- Witness for C6 on the 2-clip timeline [A(2 s), B(3 s)]: the global time
2.5 locates inside B at local offset 0.5, B's cumulative start is 2, and a
global time past the total duration 5 locates nowhere. -/
theorem sequencer_spec_witness :
    clip_at_global_time [wClipA, wClipB] (5/2) = some (wClipB, 1/2) ∧
    cumulative_start_of [wClipA, wClipB] wClipB = 2 ∧
    clip_at_global_time [wClipA, wClipB] 6 = none := by
  have h := sequencer_spec [wClipA, wClipB] (5/2) wClipB
  have h6 := sequencer_spec [wClipA, wClipB] 6 wClipB
  have heffA : wClipA.duration_effective = 2 := by
    norm_num [TimelineClip.duration_effective, wClipA, wMedia, max_def]
  have heffB : wClipB.duration_effective = 3 := by
    norm_num [TimelineClip.duration_effective, wClipB, wMedia, max_def]
  refine ⟨?_, ?_, ?_⟩
  · have := h.2.1 1 (by decide)
      (by rw [show ([wClipA, wClipB].take 1) = [wClipA] from rfl,
            effSum_cons, effSum_nil, heffA]; norm_num)
      (by rw [show ([wClipA, wClipB].take 2) = [wClipA, wClipB] from rfl,
            effSum_cons, effSum_cons, effSum_nil, heffA, heffB]; norm_num)
    rw [this]
    rw [show ([wClipA, wClipB].take 1) = [wClipA] from rfl, effSum_cons,
      effSum_nil, heffA]
    norm_num
  · exact h.2.2.2 [wClipA] [] rfl (by decide) |>.trans
      (by rw [effSum_cons, effSum_nil, heffA]; norm_num)
  · exact h6.1 (by rw [effSum_cons, effSum_cons, effSum_nil, heffA, heffB]; norm_num)

theorem cSpeed2_eff : cSpeed2.duration_effective = 5 := by
  norm_num [TimelineClip.duration_effective, cSpeed2, wMedia, max_def]

/-- C3 (failing input): for the speed-2.0 clip with raw window [0, 10),
the playhead at global time 2 locates local offset 2.0, and the code splits
the raw window at media time `start + local_sec = 2` — not at
`start + local_sec * speed = 4` as the specified raw-media-time conversion
requires.  The resulting windows are [0,2) and [2,10), not [0,4) and
[4,10). -/
theorem split_at_playhead_speed_bug :
    clip_at_global_time [cSpeed2] 2 = some (cSpeed2, 2) ∧
    split_at_playhead [cSpeed2] 2 =
      [split_left cSpeed2 2, split_right cSpeed2 2] ∧
    (split_left cSpeed2 2).«end» = some 2 ∧
    (split_right cSpeed2 2).start = 2 ∧
    cSpeed2.start + 2 * cSpeed2.speed = 4 ∧
    (2 : ℚ) ≠ 4 := by
  have h1 : clip_at_global_time [cSpeed2] 2 = some (cSpeed2, 2) := by
    rw [clip_at_global_time, clipAtFrom, if_pos (by rw [cSpeed2_eff]; norm_num)]
    norm_num
  refine ⟨h1, ?_, rfl, rfl, by norm_num [cSpeed2], by norm_num⟩
  rw [split_at_playhead, h1]
  show (if (2 : ℚ) ≤ 0.05 ∨ cSpeed2.duration_effective - 0.05 ≤ 2 then [cSpeed2]
    else replaceFirst [cSpeed2] cSpeed2
      [split_left cSpeed2 (cSpeed2.start + 2),
       split_right cSpeed2 (cSpeed2.start + 2)]) = _
  rw [if_neg (by rw [cSpeed2_eff]; norm_num)]
  rw [replaceFirst, if_pos rfl]
  norm_num [cSpeed2]

/-- C10 (amended): when `split_at_playhead` splits a clip, it replaces the
first occurrence of that clip by the left/right pair; both new clips
inherit `title`, `title_size` and `lut`, the left transition is `"none"`,
the right transition is the original one; the new clips carry no derived
artifacts; and `track` (like `speed`) is reset to the constructor default
0, not inherited. -/
theorem split_inheritance (clips : List TimelineClip) (gsec : ℚ)
    (clip : TimelineClip) (local_sec : ℚ)
    (h1 : clip_at_global_time clips gsec = some (clip, local_sec))
    (h2 : ¬ (local_sec ≤ 0.05 ∨ clip.duration_effective - 0.05 ≤ local_sec)) :
    split_at_playhead clips gsec =
      replaceFirst clips clip
        [split_left clip (clip.start + local_sec),
         split_right clip (clip.start + local_sec)] ∧
    ∀ sa : ℚ,
      (split_left clip sa).title = clip.title ∧
      (split_left clip sa).title_size = clip.title_size ∧
      (split_left clip sa).lut = clip.lut ∧
      (split_left clip sa).transition = "none" ∧
      (split_right clip sa).title = clip.title ∧
      (split_right clip sa).title_size = clip.title_size ∧
      (split_right clip sa).lut = clip.lut ∧
      (split_right clip sa).transition = clip.transition ∧
      (split_left clip sa).track = 0 ∧ (split_right clip sa).track = 0 ∧
      (split_left clip sa).speed = 1 ∧ (split_right clip sa).speed = 1 ∧
      (split_left clip sa).thumb_paths = [] ∧
      (split_left clip sa).waveform_path = none ∧
      (split_left clip sa).preview_dir = none ∧
      (split_right clip sa).thumb_paths = [] ∧
      (split_right clip sa).waveform_path = none ∧
      (split_right clip sa).preview_dir = none := by
  constructor
  · rw [split_at_playhead, h1]
    show (if local_sec ≤ 0.05 ∨ clip.duration_effective - 0.05 ≤ local_sec
        then clips
        else replaceFirst clips clip
          [split_left clip (clip.start + local_sec),
           split_right clip (clip.start + local_sec)]) = _
    rw [if_neg h2]
  · intro sa
    exact ⟨rfl, rfl, rfl, rfl, rfl, rfl, rfl, rfl, rfl, rfl, rfl, rfl,
      rfl, rfl, rfl, rfl, rfl, rfl⟩

theorem cTrack1_eff : cTrack1.duration_effective = 10 := by
  norm_num [TimelineClip.duration_effective, cTrack1, wMedia, max_def]

/-- C10 (counterexample): splitting the track-1 clip at global time 4
produces two clips whose `track` is 0, so the original claim that both
resulting clips inherit the original clip's track is false. -/
theorem split_track_counterexample :
    (split_at_playhead [cTrack1] 4).map TimelineClip.track = [0, 0] ∧
    cTrack1.track = 1 ∧ (0 : ℤ) ≠ 1 := by
  have h1 : clip_at_global_time [cTrack1] 4 = some (cTrack1, 4) := by
    rw [clip_at_global_time, clipAtFrom, if_pos (by rw [cTrack1_eff]; norm_num)]
    norm_num
  refine ⟨?_, rfl, by norm_num⟩
  rw [split_at_playhead, h1]
  show (List.map TimelineClip.track
    (if (4 : ℚ) ≤ 0.05 ∨ cTrack1.duration_effective - 0.05 ≤ 4 then [cTrack1]
      else replaceFirst [cTrack1] cTrack1
        [split_left cTrack1 (cTrack1.start + 4),
         split_right cTrack1 (cTrack1.start + 4)])) = [0, 0]
  rw [if_neg (by rw [cTrack1_eff]; norm_num)]
  rw [replaceFirst, if_pos rfl]
  rfl

/-- Witness for C10 at the same concrete input: the track-1 clip split at
global time 4 is replaced by the left/right pair. -/
theorem split_inheritance_witness :
    split_at_playhead [cTrack1] 4 =
      replaceFirst [cTrack1] cTrack1
        [split_left cTrack1 (cTrack1.start + 4),
         split_right cTrack1 (cTrack1.start + 4)] ∧
    (split_left cTrack1 (cTrack1.start + 4)).transition = "none" := by
  have h1 : clip_at_global_time [cTrack1] 4 = some (cTrack1, 4) := by
    rw [clip_at_global_time, clipAtFrom, if_pos (by rw [cTrack1_eff]; norm_num)]
    norm_num
  have h := split_inheritance [cTrack1] 4 cTrack1 4 h1
    (by rw [cTrack1_eff]; norm_num)
  exact ⟨h.1, (h.2 (cTrack1.start + 4)).2.2.2.1⟩

/-- C5: for a clip with `end` set, `end > start` and `start ≥ 0`, the
trim-duration argument is `end - start` (the raw window), the same for
every speed; speed only contributes a `setpts` video stage and the
atempo chain as the audio filter. -/
theorem render_trim_spec (clip : TimelineClip) (lutDir : String)
    (lutFileExists : String → Bool) (e : ℚ)
    (h1 : clip.«end» = some e) (h2 : clip.start < e) (h3 : 0 ≤ clip.start) :
    (render_single_clip clip lutDir lutFileExists).tArg = some (e - clip.start) ∧
    (∀ s : ℚ,
      (render_single_clip { clip with speed := s } lutDir lutFileExists).tArg =
        some (e - clip.start) ∧
      (render_single_clip { clip with speed := s } lutDir lutFileExists).ssArg =
        (render_single_clip clip lutDir lutFileExists).ssArg) ∧
    (∀ s : ℚ, s ≠ 0 → s ≠ 1 →
      (render_single_clip { clip with speed := s } lutDir lutFileExists).vf =
        (render_single_clip { clip with speed := 1 } lutDir lutFileExists).vf
          ++ [.setpts s] ∧
      (render_single_clip { clip with speed := s } lutDir lutFileExists).af =
        [atempo_chain s]) := by
  have he0 : e ≠ 0 := ne_of_gt (lt_of_le_of_lt h3 h2)
  have htArg : ∀ s : ℚ,
      (render_single_clip { clip with speed := s } lutDir lutFileExists).tArg =
        some (e - clip.start) := by
    intro s
    show (match ({ clip with speed := s } : TimelineClip).«end» with
      | some e => if e ≠ 0 ∧ clip.start < e then some (e - clip.start) else none
      | none => none) = some (e - clip.start)
    rw [show ({ clip with speed := s } : TimelineClip).«end» = clip.«end» from rfl, h1]
    show (if e ≠ 0 ∧ clip.start < e then some (e - clip.start) else none) =
      some (e - clip.start)
    rw [if_pos ⟨he0, h2⟩]
  refine ⟨?_, fun s => ⟨htArg s, rfl⟩, ?_⟩
  · have := htArg clip.speed
    rw [show ({ clip with speed := clip.speed } : TimelineClip) = clip from rfl] at this
    exact this
  · intro s hs0 hs1
    constructor
    · show (_ ++ _ ++ (if (if s = 0 then 1 else s) ≠ 1 then [VFilter.setpts (if s = 0 then 1 else s)] else [])) = _
      rw [if_neg hs0]
      rw [if_pos hs1]
      show _ = (_ ++ _ ++ (if (if (1 : ℚ) = 0 then 1 else 1) ≠ 1 then [VFilter.setpts (if (1 : ℚ) = 0 then 1 else 1)] else [])) ++ [VFilter.setpts s]
      rw [if_neg (by norm_num : ¬ ((if (1 : ℚ) = 0 then (1 : ℚ) else 1) ≠ 1))]
      rw [List.append_nil]
    · show (if (if s = 0 then 1 else s) ≠ 1 then [atempo_chain (if s = 0 then 1 else s)] else []) = _
      rw [if_neg hs0, if_pos hs1]

/-- Witness for C5: for the trim-1..9 clip the `-t` argument is 8 and the
speed-3 variant keeps it while adding the speed stages. -/
theorem render_trim_spec_witness :
    (render_single_clip cRender "luts" (fun _ => false)).tArg = some (9 - 1) ∧
    (render_single_clip { cRender with speed := 3 } "luts" (fun _ => false)).tArg =
      some (9 - 1) ∧
    (render_single_clip { cRender with speed := 3 } "luts" (fun _ => false)).af =
      [atempo_chain 3] := by
  have h := render_trim_spec cRender "luts" (fun _ => false) 9 rfl
    (by norm_num [cRender]) (by norm_num [cRender])
  exact ⟨h.1, (h.2.1 3).1, ((h.2.2 3 (by norm_num) (by norm_num)).2)⟩

/-- C4: the manifest-based stream-copy concat is chosen iff no clip has
transition `"crossfade"`; otherwise the fold emits, per adjacent pair, an
audio+video concat when the left clip's transition is none (or empty) and
a video-only xfade with the configured duration and fixed offset 1
otherwise — so wipe/slide/circle-only timelines still take the simple
path. -/
theorem export_assembly_spec (tl : List TimelineClip) (rendered : List String) :
    (assemblyPlan tl rendered = .simpleConcat (rendered.map safe_path_for_concat)
      ↔ ∀ c ∈ tl, c.transition ≠ "crossfade") ∧
    ((∃ c ∈ tl, c.transition = "crossfade") →
      assemblyPlan tl rendered = .transitions (tl.dropLast.map transitionStep)) ∧
    (∀ c : TimelineClip,
      (transitionStep c = .concatAV ↔
        (c.transition = "none" ∨ c.transition = "")) ∧
      (c.transition ≠ "none" → c.transition ≠ "" →
        transitionStep c =
          .xfadeVideoOnly (mappedTransition c) CROSSFADE_DURATION 1)) := by
  refine ⟨?_, ?_, ?_⟩
  · constructor
    · intro h c hc hcr
      have hany : tl.any (fun c => c.transition = "crossfade") = true :=
        List.any_eq_true.mpr ⟨c, hc, by simp [hcr]⟩
      rw [assemblyPlan, if_pos hany] at h
      exact SeqAssembly.noConfusion h
    · intro h
      have hany : tl.any (fun c => c.transition = "crossfade") = false := by
        rw [List.any_eq_false]
        intro c hc
        simp [h c hc]
      rw [assemblyPlan, hany]
      simp
  · intro ⟨c, hc, hcr⟩
    have hany : tl.any (fun c => c.transition = "crossfade") = true :=
      List.any_eq_true.mpr ⟨c, hc, by simp [hcr]⟩
    rw [assemblyPlan, if_pos hany]
  · intro c
    constructor
    · rw [transitionStep]
      constructor
      · intro h
        by_contra hne
        push_neg at hne
        have hm : mappedTransition c ≠ "none" := by
          rw [mappedTransition]
          simp only [hne.2, if_false]
          intro heq
          rcases eq_or_ne c.transition "crossfade" with hcf | hcf
          · rw [if_pos hcf] at heq
            exact absurd heq (by decide)
          · rw [if_neg hcf] at heq
            exact hne.1 heq
        rw [if_neg hm] at h
        exact TStep.noConfusion h
      · intro h
        have hm : mappedTransition c = "none" := by
          rw [mappedTransition]
          rcases h with h | h <;> simp [h]
        rw [if_pos hm]
    · intro h1 h2
      have hm : mappedTransition c ≠ "none" := by
        rw [mappedTransition]
        simp only [h2, if_false]
        rcases eq_or_ne c.transition "crossfade" with hcf | hcf
        · simp [hcf]
        · rw [if_neg hcf]
          exact h1
      rw [transitionStep, if_neg hm]

/-- Witness for C4: a wipe-only timeline takes the simple concat path, a
timeline containing a crossfade clip takes the pairwise fold whose first
step is a video-only xfade. -/
theorem export_assembly_spec_witness :
    assemblyPlan [cWipe, cWipe] ["a", "b"] =
      .simpleConcat [safe_path_for_concat "a", safe_path_for_concat "b"] ∧
    assemblyPlan [cCross, cWipe] ["a", "b"] =
      .transitions [TStep.xfadeVideoOnly "fade" CROSSFADE_DURATION 1] := by
  constructor
  · exact (export_assembly_spec [cWipe, cWipe] ["a", "b"]).1.mpr
      (by intro c hc; fin_cases hc <;> decide)
  · have h := (export_assembly_spec [cCross, cWipe] ["a", "b"]).2.1
      ⟨cCross, by decide, rfl⟩
    rw [h]
    rfl

/-- C8 (counterexample): deserializing a clip record with stored speed
−2.0 keeps the speed at −2.0; it is not coerced to 1.0 and violates
`speed > 0`, so the original claim is false for `from_dict`. -/
theorem from_dict_speed_counterexample :
    from_dict_speed (some (.num (-2))) = -2 ∧
    from_dict_speed (some (.num (-2))) ≠ 1 ∧
    ¬ 0 < from_dict_speed (some (.num (-2))) := by
  refine ⟨rfl, ?_, ?_⟩ <;> norm_num [from_dict_speed]

/-- C8 (amended): `apply_speed_to_clip` coerces any non-positive input to
1.0 (so its result is always positive); `from_dict` coerces only missing
or non-convertible speed fields to 1.0 and keeps numeric values as stored,
including non-positive ones; `duration_effective` treats any non-positive
speed as 1.0. -/
theorem speed_guard_spec (val : ℚ) (q : ℚ)
    (c : TimelineClip) (hc : c.speed ≤ 0) :
    0 < apply_speed val ∧
    (val ≤ 0 → apply_speed val = 1) ∧
    (0 < val → apply_speed val = val) ∧
    from_dict_speed none = 1 ∧
    from_dict_speed (some .nonNumeric) = 1 ∧
    from_dict_speed (some (.num q)) = q ∧
    c.duration_effective = TimelineClip.duration_effective { c with speed := 1 } := by
  refine ⟨?_, ?_, ?_, rfl, rfl, rfl, ?_⟩
  · rw [apply_speed]
    split
    · norm_num
    · rename_i h
      exact lt_of_not_le h
  · intro h
    rw [apply_speed, if_pos h]
  · intro h
    rw [apply_speed, if_neg (not_le.mpr h)]
  · rw [duration_effective_def, duration_effective_def, if_pos hc]
    rw [show ({ c with speed := 1 } : TimelineClip).speed = 1 from rfl]
    rw [if_neg (by norm_num : ¬ (1 : ℚ) ≤ 0)]
    rw [show baseDuration { c with speed := 1 } = baseDuration c from rfl]

/-- Witness for C8 at speed −2: the edit-boundary coercion yields 1.0 and
a clip stored with speed −2 has the same effective duration as at speed 1. -/
theorem speed_guard_spec_witness :
    0 < apply_speed (-2) ∧ apply_speed (-2) = 1 ∧
    TimelineClip.duration_effective { cRender with speed := -2 } =
      TimelineClip.duration_effective { cRender with speed := 1 } := by
  have h := speed_guard_spec (-2) 0 { cRender with speed := -2 }
    (by norm_num)
  exact ⟨h.1, h.2.1 (by norm_num), h.2.2.2.2.2.2⟩

theorem cacheWaveClip_wave (clip0 : TimelineClip) (env : PreviewEnv) :
    (cacheWaveClip clip0 env).waveform_path =
      (match env.waveCache with
        | some w => if env.existsFs w then some w else clip0.waveform_path
        | none => clip0.waveform_path) := by
  rcases h : env.waveCache with _ | w <;> rw [cacheWaveClip, h]
  show (if env.existsFs w = true then
      ({ clip0 with waveform_path := some w } : TimelineClip) else clip0).waveform_path =
    if env.existsFs w = true then some w else clip0.waveform_path
  split <;> rfl

theorem cacheWaveClip_thumbs (clip0 : TimelineClip) (env : PreviewEnv) :
    (cacheWaveClip clip0 env).thumb_paths = clip0.thumb_paths := by
  rcases h : env.waveCache with _ | w <;> rw [cacheWaveClip, h]
  show (if env.existsFs w = true then
      ({ clip0 with waveform_path := some w } : TimelineClip) else clip0).thumb_paths =
    clip0.thumb_paths
  split <;> rfl

theorem cacheThumbClip_thumbs (c1 : TimelineClip) (env : PreviewEnv) :
    (cacheThumbClip c1 env).thumb_paths =
      (match env.thumbsCache with
        | some ts => if ts.all env.existsFs then ts else c1.thumb_paths
        | none => c1.thumb_paths) := by
  rcases h : env.thumbsCache with _ | ts <;> rw [cacheThumbClip, h]
  show (if ts.all env.existsFs = true then
      ({ c1 with thumb_paths := ts } : TimelineClip) else c1).thumb_paths =
    if ts.all env.existsFs = true then ts else c1.thumb_paths
  split <;> rfl

theorem cacheThumbClip_wave (c1 : TimelineClip) (env : PreviewEnv) :
    (cacheThumbClip c1 env).waveform_path = c1.waveform_path := by
  rcases h : env.thumbsCache with _ | ts <;> rw [cacheThumbClip, h]
  show (if ts.all env.existsFs = true then
      ({ c1 with thumb_paths := ts } : TimelineClip) else c1).waveform_path =
    c1.waveform_path
  split <;> rfl

theorem regenPart_madeDir (clip0 : TimelineClip) (env : PreviewEnv) (c2 : TimelineClip) :
    (regenPart clip0 env c2).madeDir = true := rfl

theorem regenPart_regenedThumbs (clip0 : TimelineClip) (env : PreviewEnv) (c2 : TimelineClip) :
    (regenPart clip0 env c2).regenedThumbs = decide (c2.thumb_paths = []) := rfl

theorem regenPart_regenedWave (clip0 : TimelineClip) (env : PreviewEnv) (c2 : TimelineClip) :
    (regenPart clip0 env c2).regenedWave =
      decide (¬ optTruthy c2.waveform_path ∧
        (clip0.media.mtype = "video" ∨ clip0.media.mtype = "audio")) := by
  simp only [regenPart]
  split <;> rfl

theorem regenPart_preview_dir (clip0 : TimelineClip) (env : PreviewEnv) (c2 : TimelineClip) :
    (regenPart clip0 env c2).clip.preview_dir = some env.freshDir := by
  simp only [regenPart]
  repeat' split
  all_goals rfl

theorem regenPart_clip_thumbs (clip0 : TimelineClip) (env : PreviewEnv)
    (c2 : TimelineClip) (h : c2.thumb_paths = []) :
    (regenPart clip0 env c2).clip.thumb_paths = env.genThumbs := by
  simp only [regenPart]
  repeat' split
  all_goals first
    | rfl
    | exact absurd h (by assumption)

theorem regenPart_clip_wave (clip0 : TimelineClip) (env : PreviewEnv)
    (c2 : TimelineClip) (h : c2.waveform_path = none)
    (hm : clip0.media.mtype = "video") :
    (regenPart clip0 env c2).clip.waveform_path = env.genWave := by
  simp only [regenPart]
  repeat' split
  all_goals simp_all [optTruthy]

/-- C9: for a clip with no artifacts yet on video media, cached thumbnails
are reused (not regenerated) iff the cache holds a non-empty list whose
files all still exist, a cached waveform is reused iff its (non-empty)
path still exists; and when a cached file is missing the lookup is a miss:
the run regenerates the artifact into the fresh clip directory instead of
failing. -/
theorem preview_cache_spec (clip0 : TimelineClip) (env : PreviewEnv)
    (hw0 : clip0.waveform_path = none) (ht0 : clip0.thumb_paths = [])
    (hm : clip0.media.mtype = "video") :
    ((preview_run clip0 env).regenedThumbs = false ↔
      ∃ ts, env.thumbsCache = some ts ∧ ts.all env.existsFs = true ∧ ts ≠ []) ∧
    ((preview_run clip0 env).regenedWave = false ↔
      ∃ w, env.waveCache = some w ∧ env.existsFs w = true ∧ w ≠ "") ∧
    (∀ ts, env.thumbsCache = some ts → ts.all env.existsFs = false →
      (preview_run clip0 env).regenedThumbs = true ∧
      (preview_run clip0 env).madeDir = true ∧
      (preview_run clip0 env).clip.preview_dir = some env.freshDir ∧
      (preview_run clip0 env).clip.thumb_paths = env.genThumbs) ∧
    (∀ w, env.waveCache = some w → env.existsFs w = false →
      (preview_run clip0 env).regenedWave = true ∧
      (preview_run clip0 env).madeDir = true ∧
      (preview_run clip0 env).clip.waveform_path = env.genWave) := by
  set c2 : TimelineClip := cacheThumbClip (cacheWaveClip clip0 env) env with hc2
  have hW : c2.waveform_path =
      (match env.waveCache with
        | some w => if env.existsFs w then some w else none
        | none => none) := by
    rw [hc2, cacheThumbClip_wave, cacheWaveClip_wave, hw0]
  have hT : c2.thumb_paths =
      (match env.thumbsCache with
        | some ts => if ts.all env.existsFs then ts else []
        | none => []) := by
    rw [hc2, cacheThumbClip_thumbs, cacheWaveClip_thumbs, ht0]
  have hrun : preview_run clip0 env =
      if optTruthy c2.waveform_path ∧ c2.thumb_paths ≠ [] then
        { clip := c2, madeDir := false, regenedThumbs := false, regenedWave := false,
          waveCacheOut := env.waveCache, thumbsCacheOut := env.thumbsCache }
      else regenPart clip0 env c2 := rfl
  have hTne : c2.thumb_paths ≠ [] ↔
      ∃ ts, env.thumbsCache = some ts ∧ ts.all env.existsFs = true ∧ ts ≠ [] := by
    rw [hT]
    rcases htc : env.thumbsCache with _ | ts
    · simp
    · by_cases hta : ts.all env.existsFs = true
      · simp only [hta, if_true]
        constructor
        · intro hne
          exact ⟨ts, rfl, hta, hne⟩
        · rintro ⟨ts2, hts2, _, hne⟩
          cases hts2
          exact hne
      · simp only [hta, if_false]
        constructor
        · intro hne
          exact absurd rfl hne
        · rintro ⟨ts2, hts2, hall, _⟩
          cases hts2
          exact absurd hall hta
  have hWtruthy : optTruthy c2.waveform_path = true ↔
      ∃ w, env.waveCache = some w ∧ env.existsFs w = true ∧ w ≠ "" := by
    rw [hW]
    rcases hwc : env.waveCache with _ | w
    · simp [optTruthy]
    · by_cases hwe : env.existsFs w = true
      · simp [hwe, optTruthy]
      · simp [hwe, optTruthy]
  have hTmiss : ∀ ts, env.thumbsCache = some ts → ts.all env.existsFs = false →
      c2.thumb_paths = [] := by
    intro ts hts hta
    rw [hT, hts]
    simp [hta]
  have hWmiss : ∀ w, env.waveCache = some w → env.existsFs w = false →
      c2.waveform_path = none := by
    intro w hws hwe
    rw [hW, hws]
    simp [hwe]
  by_cases hE : optTruthy c2.waveform_path ∧ c2.thumb_paths ≠ []
  · refine ⟨?_, ?_, ?_, ?_⟩
    · rw [hrun, if_pos hE]
      simp only [true_iff]
      exact hTne.mp hE.2
    · rw [hrun, if_pos hE]
      simp only [true_iff]
      exact hWtruthy.mp hE.1
    · intro ts hts hta
      exact absurd (hTmiss ts hts hta) hE.2
    · intro w hws hwe
      have := hWmiss w hws hwe
      rw [this] at hE
      exact absurd hE.1 (by simp [optTruthy])
  · have hrun' : preview_run clip0 env = regenPart clip0 env c2 := by
      rw [hrun, if_neg hE]
    refine ⟨?_, ?_, ?_, ?_⟩
    · rw [hrun', regenPart_regenedThumbs, ← hTne]
      simp
    · rw [hrun', regenPart_regenedWave, hm, ← hWtruthy]
      simp
    · intro ts hts hta
      have h0 := hTmiss ts hts hta
      refine ⟨?_, ?_, ?_, ?_⟩
      · rw [hrun', regenPart_regenedThumbs, h0]
        simp
      · rw [hrun']
        exact regenPart_madeDir clip0 env c2
      · rw [hrun']
        exact regenPart_preview_dir clip0 env c2
      · rw [hrun']
        exact regenPart_clip_thumbs clip0 env c2 h0
    · intro w hws hwe
      have h0 := hWmiss w hws hwe
      refine ⟨?_, ?_, ?_⟩
      · rw [hrun', regenPart_regenedWave, h0, hm]
        simp [optTruthy]
      · rw [hrun']
        exact regenPart_madeDir clip0 env c2
      · rw [hrun']
        exact regenPart_clip_wave clip0 env c2 h0 hm

/-- Witness for C9: with cached files missing on disk, the run regenerates
both artifacts into the fresh directory. -/
theorem preview_cache_spec_witness :
    (preview_run { media := wMedia, «end» := some 2 } wEnv).regenedThumbs = true ∧
    (preview_run { media := wMedia, «end» := some 2 } wEnv).clip.preview_dir =
      some "/tmp/clip_fresh" ∧
    (preview_run { media := wMedia, «end» := some 2 } wEnv).clip.thumb_paths =
      ["n1", "n2"] ∧
    (preview_run { media := wMedia, «end» := some 2 } wEnv).regenedWave = true ∧
    (preview_run { media := wMedia, «end» := some 2 } wEnv).clip.waveform_path =
      some "nw" := by
  have h := preview_cache_spec { media := wMedia, «end» := some 2 } wEnv
    rfl rfl rfl
  have ht := h.2.2.1 ["t1", "t2"] rfl (by decide)
  have hw := h.2.2.2 "w1" rfl (by decide)
  exact ⟨ht.1, ht.2.2.1, ht.2.2.2, hw.1, hw.2.2⟩

theorem mem_dropLast_append {α : Type} (l1 l2 : List α) (a : α)
    (h : a ∈ (l1 ++ l2).dropLast) : a ∈ l1 ∨ a ∈ l2.dropLast := by
  rcases eq_or_ne l2 [] with h2 | h2
  · subst h2
    left
    exact List.dropLast_subset _ (by simpa using h)
  · rw [List.dropLast_append_of_ne_nil _ h2] at h
    rcases List.mem_append.mp h with h3 | h3
    · exact Or.inl h3
    · exact Or.inr h3

theorem runSeq_error (oracle : ℕ → CmdResult) :
    ∀ (seq : List PlannedCmd) (st : ExpState) (msg : String) (st' : ExpState),
      runSeq oracle st seq = .error (msg, st') →
      (∃ k p, (oracle k).exitCode ≠ 0 ∧ msg = p ++ (oracle k).stderr) ∧
      (∀ a ∈ st'.trace, a ∈ st.trace ∨
        ∃ c ∈ seq.dropLast, a = ExportAction.mk c.dest c.writesOutput) := by
  intro seq
  induction seq with
  | nil =>
    intro st msg st' h
    rw [runSeq] at h
    exact Except.noConfusion h
  | cons c rest ih =>
    intro st msg st' h
    rw [runSeq] at h
    by_cases hc : (oracle st.k).exitCode = 0
    · rw [if_pos hc] at h
      have hrest : rest ≠ [] := by
        intro he
        subst he
        rw [runSeq] at h
        exact Except.noConfusion h
      have := ih _ msg st' h
      refine ⟨this.1, ?_⟩
      intro a ha
      rcases this.2 a ha with h1 | ⟨c', hc', he⟩
      · rcases List.mem_append.mp h1 with h2 | h2
        · exact Or.inl h2
        · refine Or.inr ⟨c, ?_, List.mem_singleton.mp h2⟩
          rw [show (c :: rest) = [c] ++ rest from rfl,
            List.dropLast_append_of_ne_nil _ hrest]
          exact List.mem_append.mpr (Or.inl (List.mem_singleton_self c))
      · refine Or.inr ⟨c', ?_, he⟩
        rw [show (c :: rest) = [c] ++ rest from rfl,
          List.dropLast_append_of_ne_nil _ hrest]
        exact List.mem_append.mpr (Or.inr hc')
    · rw [if_neg hc] at h
      simp only [Except.error.injEq, Prod.mk.injEq] at h
      refine ⟨⟨st.k, c.failMsg, hc, h.1.symm⟩, ?_⟩
      intro a ha
      left
      rw [← h.2] at ha
      exact ha

theorem exportPlan_dropLast (tl : List TimelineClip) (bgMusic : Option String)
    (outputPath tempDir : String) (replaceOk : Bool) :
    ∀ c ∈ (exportPlan tl bgMusic outputPath tempDir replaceOk).dropLast,
      c.writesOutput = false := by
  intro c hc
  simp only [exportPlan] at hc
  rcases mem_dropLast_append _ _ _ hc with h1 | h1
  · rcases List.mem_map.mp h1 with ⟨i, _, he⟩
    rw [← he]
  · rcases mem_dropLast_append _ _ _ h1 with h2 | h2
    · split at h2
      · rcases List.mem_map.mp h2 with ⟨i, _, he⟩
        rw [← he]
      · rw [List.mem_singleton.mp h2]
    · rcases hbg : bgMusic with _ | b
      · rw [hbg] at h2
        have h2a : c ∈ (if replaceOk = true then ([] : List PlannedCmd)
            else [⟨outputPath, "Failed to produce final output: ", true⟩]).dropLast :=
          h2
        split at h2a <;> simp at h2a
      · rw [hbg] at h2
        have h2a : c ∈ ([(⟨tempDir ++ "/bg.aac", "Failed to process music: ",
              false⟩ : PlannedCmd),
            ⟨outputPath, "Failed to mix background music: ", true⟩]).dropLast :=
          h2
        rw [show ([(⟨tempDir ++ "/bg.aac", "Failed to process music: ", false⟩ :
              PlannedCmd),
            ⟨outputPath, "Failed to mix background music: ", true⟩]).dropLast
            = [⟨tempDir ++ "/bg.aac", "Failed to process music: ", false⟩]
          from rfl] at h2a
        rw [List.mem_singleton.mp h2a]

/-- C7: whenever an external invocation of any export stage exits
non-zero, the export aborts with an error message that carries that
invocation's stderr text, and no invocation that writes the requested
output path had completed (no intermediate is promoted to the output
path).  The embedding is a pure function of the timeline, so the timeline
and its clips are unchanged by a failed export. -/
theorem export_failure_spec (tl : List TimelineClip) (bgMusic : Option String)
    (outputPath tempDir : String) (replaceOk : Bool) (oracle : ℕ → CmdResult)
    (msg : String) (tr : List ExportAction)
    (h : export_run tl bgMusic outputPath tempDir replaceOk oracle =
      .error (msg, tr)) :
    (∃ k p, (oracle k).exitCode ≠ 0 ∧ msg = p ++ (oracle k).stderr) ∧
    (∀ a ∈ tr, a.writesOutput = false) := by
  rcases hrs : runSeq oracle ⟨0, []⟩
      (exportPlan tl bgMusic outputPath tempDir replaceOk) with ⟨msg0, st⟩ | st
  case ok =>
    rw [export_run, hrs] at h
    simp only [finishExport] at h
    split at h <;> exact Except.noConfusion h
  case error =>
    rw [export_run, hrs] at h
    simp only [finishExport, Except.error.injEq, Prod.mk.injEq] at h
    obtain ⟨h1, h2⟩ := h
    have hr := runSeq_error oracle _ _ _ _ hrs
    constructor
    · rcases hr.1 with ⟨k, p, hk, hp⟩
      refine ⟨k, "Export failed: " ++ p, hk, ?_⟩
      rw [← h1, hp]
      exact (String.append_assoc _ _ _).symm
    · intro a ha
      rw [← h2] at ha
      rcases hr.2 a ha with hmem | ⟨c, hc, he⟩
      · exact absurd hmem (List.not_mem_nil a)
      · rw [he]
        exact exportPlan_dropLast tl bgMusic outputPath tempDir replaceOk c hc

/-- Witness for C7: with every invocation failing, exporting one clip
aborts with the render-stage message carrying the stderr text, and the
empty trace contains no output-writing action. -/
theorem export_failure_spec_witness :
    (∃ k p, (failOracle k).exitCode ≠ 0 ∧
      "Export failed: Failed to render clip: boom" = p ++ (failOracle k).stderr) ∧
    (∀ a ∈ ([] : List ExportAction), a.writesOutput = false) :=
  export_failure_spec [wClipA] none "out.mp4" "T" true failOracle
    "Export failed: Failed to render clip: boom" [] (by rfl)

end PyEditor
